import Mathlib

/-!
Shallow embedding of the `signpost` crate (files `signpost/src/lib.rs` and
`signpost_derive/src/lib.rs`).

The native tracing facility (`os_log_create`, `os_signpost_enabled`,
`_os_signpost_emit_with_name_impl`) is external to the crate; calls into it
are modelled as an explicit trace of `Effect` values, emitted in the exact
order the Rust source performs them.  The environment supplies the values the
native facility would return: `createRet : Nat` is what `os_log_create`
returns at resolution time, and `enabled : Nat → Bool` is what
`os_signpost_enabled` answers for a given handle at the moment of the call
(enablement can change over time, so each operation takes the enablement
function current at its own call time).

Machine integers (`usize` handles, `u64` ids, `u8` signpost types) carry no
arithmetic in this code, so they are modelled as `Nat`.  Zero-terminated
C strings are modelled as their byte lists (`List Nat`), including the
trailing NUL where the source literal includes it.

`std::sync::Once` guarantees the closure of `call_once` runs exactly once,
with every caller blocking until it completes, and `Ordering::SeqCst`
store/load gives sequentially consistent publication; under those guarantees
any concurrent interleaving of `OsLog::get` calls is equivalent to some
sequential order of atomic get-steps, which is what `runGets` models.
-/

/-- Signpost type constant `SIGNPOST_TYPE_EVENT` from the `sys` module. -/
def SIGNPOST_TYPE_EVENT : Nat := 0

/-- Signpost type constant `SIGNPOST_TYPE_INTERVAL_BEGIN` from the `sys` module. -/
def SIGNPOST_TYPE_INTERVAL_BEGIN : Nat := 1

/-- Signpost type constant `SIGNPOST_TYPE_INTERVAL_END` from the `sys` module. -/
def SIGNPOST_TYPE_INTERVAL_END : Nat := 2

/-- One observable step of the crate: a call into the native facility, or the
zero-initialization of a stack scratch buffer (`let mut buf = [0u8; N];`). -/
inductive Effect where
  /-- a call `os_log_create(subsystem, category)` -/
  | createLog (subsystem category : List Nat) : Effect
  /-- a call `os_signpost_enabled(log)` -/
  | enabledCheck (log : Nat) : Effect
  /-- zero-initialization of a `[0u8; size]` scratch buffer -/
  | bufInit (size : Nat) : Effect
  /-- a call `_os_signpost_emit_with_name_impl(dso, log, ty, id, name, null, buf, bufSize)` -/
  | emit (log ty id : Nat) (name : List Nat) (bufSize : Nat) : Effect
deriving DecidableEq, Repr

/-- A marker as received by the native facility: the projection of an `emit`
effect through the three signpost type constants. -/
inductive Marker where
  /-- an event marker -/
  | event (id : Nat) (name : List Nat) : Marker
  /-- an interval-begin marker -/
  | intervalBegin (id : Nat) (name : List Nat) : Marker
  /-- an interval-end marker -/
  | intervalEnd (id : Nat) (name : List Nat) : Marker
deriving DecidableEq, Repr

/-- The markers carried by a trace: each `emit` effect, classified by its
signpost type constant. -/
def markersOf : List Effect → List Marker
  | [] => []
  | Effect.emit _ ty id name _ :: rest =>
      (if ty = SIGNPOST_TYPE_EVENT then [Marker.event id name]
       else if ty = SIGNPOST_TYPE_INTERVAL_BEGIN then [Marker.intervalBegin id name]
       else if ty = SIGNPOST_TYPE_INTERVAL_END then [Marker.intervalEnd id name]
       else []) ++ markersOf rest
  | _ :: rest => markersOf rest

/-- Number of `createLog` effects in a trace: how many times `os_log_create`
was invoked. -/
def createCount (tr : List Effect) : Nat :=
  (tr.filter fun e => match e with
    | Effect.createLog _ _ => true
    | _ => false).length

/-- The `OsLog` struct: `subsystem`/`category` are the `&'static CStr` fields
as byte lists; `handle` is the `AtomicUsize` value; `initDone` is the
completion state of the `Once` field `init`. -/
structure OsLog where
  /-- the `subsystem` field -/
  subsystem : List Nat
  /-- the `category` field -/
  category : List Nat
  /-- the `handle: AtomicUsize` field -/
  handle : Nat
  /-- completion state of the `init: Once` field -/
  initDone : Bool
deriving DecidableEq, Repr

/-- The `SignpostInterval` guard struct: a reference to the owning logger (its
state at guard-construction time), the stored id and the stored name.  The
Rust type implements `Drop`, so it cannot be `Copy`: a guard value is
move-only and its drop glue runs at most once. -/
structure SignpostInterval where
  /-- the `log: &'a OsLog` field -/
  log : OsLog
  /-- the `id: u64` field -/
  id : Nat
  /-- the `name: &'a CStr` field -/
  name : List Nat
deriving DecidableEq, Repr

/-- `OsLog::new`: pure value construction, handle sentinel 0, `Once` fresh. -/
def OsLog.new (subsystem category : List Nat) : OsLog :=
  { subsystem := subsystem, category := category, handle := 0, initDone := false }

/-- `OsLog::CATEGORY_POINTS_OF_INTEREST`, the bytes of `b"PointsOfInterest\0"`. -/
def OsLog.CATEGORY_POINTS_OF_INTEREST : List Nat :=
  [80, 111, 105, 110, 116, 115, 79, 102, 73, 110, 116, 101, 114, 101, 115, 116, 0]

/-- `OsLog::CATEGORY_DYNAMIC_TRACING`, the bytes of `b"PointsOfInterest\0"`. -/
def OsLog.CATEGORY_DYNAMIC_TRACING : List Nat :=
  [80, 111, 105, 110, 116, 115, 79, 102, 73, 110, 116, 101, 114, 101, 115, 116, 0]

/-- `OsLog::CATEGORY_DYNAMIC_STACK_TRACING`, the bytes of `b"PointsOfInterest\0"`. -/
def OsLog.CATEGORY_DYNAMIC_STACK_TRACING : List Nat :=
  [80, 111, 105, 110, 116, 115, 79, 102, 73, 110, 116, 101, 114, 101, 115, 116, 0]

/-- `OsLog::with_category`: builder-style copy with the category replaced. -/
def OsLog.with_category (self : OsLog) (category : List Nat) : OsLog :=
  { self with category := category }

/-- `OsLog::get`: `self.init.call_once(|| self.handle.store(os_log_create(..)))`
followed by `self.handle.load()`.  If the `Once` already completed, no native
call happens and the cached handle is returned; otherwise `os_log_create` runs
(returning `createRet`), its result is stored, and returned.  Result:
(updated logger, returned handle, trace). -/
def OsLog.get (self : OsLog) (createRet : Nat) : OsLog × Nat × List Effect :=
  if self.initDone then
    (self, self.handle, [])
  else
    ({ self with handle := createRet, initDone := true }, createRet,
     [Effect.createLog self.subsystem self.category])

/-- `OsLog::emit_event`: resolve the handle, zero-init a 64-byte scratch
buffer, check enablement, and — only if enabled — emit one event marker.
The buffer initialization precedes the enablement check, as in the source
(line order: `get`, `let mut buf = [0u8; 64]`, `os_signpost_enabled`,
`_os_signpost_emit_with_name_impl`). -/
def OsLog.emit_event (self : OsLog) (createRet : Nat) (enabled : Nat → Bool)
    (id : Nat) (name : List Nat) : OsLog × List Effect :=
  let g := self.get createRet
  let tr := g.2.2 ++ [Effect.bufInit 64, Effect.enabledCheck g.2.1]
  if enabled g.2.1 then
    (g.1, tr ++ [Effect.emit g.2.1 SIGNPOST_TYPE_EVENT id name 64])
  else
    (g.1, tr)

/-- `OsLog::begin_interval`: resolve the handle, zero-init a 64-byte scratch
buffer, check enablement, emit one interval-begin marker only if enabled, and
unconditionally construct and return the guard referencing this logger, id
and name.  Result: (guard, trace). -/
def OsLog.begin_interval (self : OsLog) (createRet : Nat) (enabled : Nat → Bool)
    (id : Nat) (name : List Nat) : SignpostInterval × List Effect :=
  let g := self.get createRet
  let tr := g.2.2 ++ [Effect.bufInit 64, Effect.enabledCheck g.2.1] ++
    (if enabled g.2.1 then [Effect.emit g.2.1 SIGNPOST_TYPE_INTERVAL_BEGIN id name 64] else [])
  ({ log := g.1, id := id, name := name }, tr)

/-- `<SignpostInterval as Drop>::drop`: zero-init a 4-byte scratch buffer,
resolve the owning logger's handle, re-check enablement at drop time, and —
only if enabled — emit one interval-end marker with the stored id and name.
The buffer initialization precedes the `get` call, as in the source. -/
def SignpostInterval.drop (self : SignpostInterval) (createRet : Nat)
    (enabled : Nat → Bool) : List Effect :=
  let g := self.log.get createRet
  [Effect.bufInit 4] ++ g.2.2 ++ [Effect.enabledCheck g.2.1] ++
    (if enabled g.2.1 then [Effect.emit g.2.1 SIGNPOST_TYPE_INTERVAL_END self.id self.name 4] else [])

/-- A sequence of `n` calls to `OsLog::get` on a shared logger (with the
native `os_log_create` returning `createRet` whenever it runs), serialized as
`Once` and `SeqCst` atomics guarantee.  Result: (final logger state, list of
handles observed by the callers, concatenated trace). -/
def runGets : Nat → OsLog → Nat → OsLog × List Nat × List Effect
  | 0, l, _ => (l, [], [])
  | n + 1, l, createRet =>
      let g := l.get createRet
      let rest := runGets n g.1 createRet
      (rest.1, g.2.1 :: rest.2.1, g.2.2 ++ rest.2.2)

/-- `str_lit_to_static_cstr` from `signpost_derive/src/lib.rs`, on the byte
representation of the string literal: reject a literal containing a NUL byte
(compile-time diagnostic, modelled as `none`); otherwise push one trailing
NUL and materialize the bytes as a static zero-terminated string. -/
def str_lit_to_static_cstr (s : List Nat) : Option (List Nat) :=
  if 0 ∈ s then none else some (s ++ [0])

/-- Markers distribute over trace concatenation. -/
theorem markersOf_append (a b : List Effect) :
    markersOf (a ++ b) = markersOf a ++ markersOf b := by
  induction a with
  | nil => simp [markersOf]
  | cons e rest ih => cases e <;> simp [markersOf, ih]

/-- After any `get`, the `Once` is completed. -/
theorem get_initDone (l : OsLog) (r : Nat) : (l.get r).1.initDone = true := by
  unfold OsLog.get
  split <;> simp_all

/-- A `get` returns exactly the handle cached in the logger state it leaves. -/
theorem get_handle_eq (l : OsLog) (r : Nat) : (l.get r).1.handle = (l.get r).2.1 := by
  unfold OsLog.get
  split <;> simp

/-- A `get` on an already-initialized logger does nothing native. -/
theorem get_done (l : OsLog) (r : Nat) (h : l.initDone = true) :
    l.get r = (l, l.handle, []) := by
  unfold OsLog.get
  simp [h]

/-- On an already-initialized logger, any number of `get` calls performs no
native creation and every caller observes the cached handle. -/
theorem runGets_done (n : Nat) (l : OsLog) (r : Nat) (h : l.initDone = true) :
    runGets n l r = (l, List.replicate n l.handle, []) := by
  induction n with
  | zero => simp [runGets]
  | succ k ih => simp [runGets, get_done l r h, ih, List.replicate]

/-- C9: the three predefined category constants `CATEGORY_POINTS_OF_INTEREST`,
`CATEGORY_DYNAMIC_TRACING` and `CATEGORY_DYNAMIC_STACK_TRACING` resolve to the
identical underlying zero-terminated string, byte-for-byte equal. -/
theorem C9_categories_identical :
    OsLog.CATEGORY_POINTS_OF_INTEREST = OsLog.CATEGORY_DYNAMIC_TRACING ∧
    OsLog.CATEGORY_DYNAMIC_TRACING = OsLog.CATEGORY_DYNAMIC_STACK_TRACING :=
  ⟨rfl, rfl⟩

/-- C8: for every string literal (as its byte list), if it contains an
embedded NUL byte, macro expansion fails with a build-time diagnostic
(modelled: `str_lit_to_static_cstr` returns `none`); otherwise the macro
produces exactly the literal's bytes with one trailing NUL appended, as a
static zero-terminated string. -/
theorem C8_nul_rejection (s : List Nat) :
    (0 ∈ s → str_lit_to_static_cstr s = none) ∧
    (0 ∉ s → str_lit_to_static_cstr s = some (s ++ [0])) := by
  constructor
  · intro h
    simp [str_lit_to_static_cstr, h]
  · intro h
    simp [str_lit_to_static_cstr, h]

/-- C8 witness: a literal with an embedded NUL is rejected, and a NUL-free
literal gains exactly one trailing NUL. -/
theorem C8_nul_rejection_witness :
    str_lit_to_static_cstr [72, 0, 105] = none ∧
    str_lit_to_static_cstr [72, 105] = some [72, 105, 0] :=
  ⟨(C8_nul_rejection [72, 0, 105]).1 (by decide),
   (C8_nul_rejection [72, 105]).2 (by decide)⟩

/-- C7: the logger `OsLog::new(subsystem, catA).with_category(catB)` resolves
its handle with a single `os_log_create(subsystem, catB)` call — the category
argument is `catB`, never `catA` — and `with_category` leaves the subsystem
unchanged. -/
theorem C7_category_swap (s ca cb : List Nat) (r : Nat) :
    (((OsLog.new s ca).with_category cb).get r).2.2 = [Effect.createLog s cb] ∧
    ((OsLog.new s ca).with_category cb).subsystem = s := by
  constructor
  · simp [OsLog.new, OsLog.with_category, OsLog.get]
  · simp [OsLog.new, OsLog.with_category]

/-- C5: `begin_interval` constructs and returns a guard referencing this
logger (in its post-resolution state), this id and this name, in every case:
the guard value does not depend on the enablement function at all, so it is
the same whether the begin marker was emitted or not. -/
theorem C5_guard_always_returned (l : OsLog) (r id : Nat)
    (enabled enabled' : Nat → Bool) (name : List Nat) :
    (l.begin_interval r enabled id name).1.id = id ∧
    (l.begin_interval r enabled id name).1.name = name ∧
    (l.begin_interval r enabled id name).1.log = (l.get r).1 ∧
    (l.begin_interval r enabled id name).1 = (l.begin_interval r enabled' id name).1 := by
  refine ⟨rfl, rfl, rfl, rfl⟩

/-- A handle-resolution call emits no marker: its trace is at most one
`createLog` effect. -/
theorem markersOf_get (l : OsLog) (r : Nat) : markersOf (l.get r).2.2 = [] := by
  unfold OsLog.get
  split <;> simp [markersOf]

/-- C4: one run of a guard's forced release (`drop`) resolves the owning
logger's handle, re-checks enablement on that resolved handle at release
time, and emits exactly one interval-end marker carrying the stored id and
name when enabled and none when disabled — never more than one end marker
per run.  (The Rust guard implements `Drop`, hence is not `Copy`: the run
happens exactly once per guard value.) -/
theorem C4_drop_check_then_emit_once (g : SignpostInterval) (r : Nat)
    (enabled : Nat → Bool) :
    Effect.enabledCheck (g.log.get r).2.1 ∈ g.drop r enabled ∧
    markersOf (g.drop r enabled) =
      (if enabled (g.log.get r).2.1 then [Marker.intervalEnd g.id g.name] else []) ∧
    (markersOf (g.drop r enabled)).length ≤ 1 := by
  refine ⟨?_, ?_, ?_⟩
  · unfold SignpostInterval.drop
    cases enabled (g.log.get r).2.1 <;> simp
  · unfold SignpostInterval.drop
    cases h : enabled (g.log.get r).2.1 <;>
      simp [h, markersOf_append, markersOf, markersOf_get, SIGNPOST_TYPE_EVENT,
        SIGNPOST_TYPE_INTERVAL_BEGIN, SIGNPOST_TYPE_INTERVAL_END]
  · unfold SignpostInterval.drop
    cases h : enabled (g.log.get r).2.1 <;>
      simp [h, markersOf_append, markersOf, markersOf_get, SIGNPOST_TYPE_EVENT,
        SIGNPOST_TYPE_INTERVAL_BEGIN, SIGNPOST_TYPE_INTERVAL_END]

/-- C6: in the scenario `begin_interval(logger, 42, "Compute")` followed by
destruction of the returned guard, with tracing enabled throughout exactly
two markers are emitted in order — interval-begin(42, "Compute") then
interval-end(42, "Compute") — and with tracing disabled throughout zero
markers are emitted (both operations are total, so they complete without
error). -/
theorem C6_sentinel_scenario (s c : List Nat) (r : Nat) :
    markersOf
        (((OsLog.new s c).begin_interval r (fun _ => true) 42
            [67, 111, 109, 112, 117, 116, 101, 0]).2 ++
          ((OsLog.new s c).begin_interval r (fun _ => true) 42
            [67, 111, 109, 112, 117, 116, 101, 0]).1.drop r (fun _ => true)) =
      [Marker.intervalBegin 42 [67, 111, 109, 112, 117, 116, 101, 0],
       Marker.intervalEnd 42 [67, 111, 109, 112, 117, 116, 101, 0]] ∧
    markersOf
        (((OsLog.new s c).begin_interval r (fun _ => false) 42
            [67, 111, 109, 112, 117, 116, 101, 0]).2 ++
          ((OsLog.new s c).begin_interval r (fun _ => false) 42
            [67, 111, 109, 112, 117, 116, 101, 0]).1.drop r (fun _ => false)) = [] := by
  constructor <;>
    simp [OsLog.new, OsLog.begin_interval, OsLog.get, SignpostInterval.drop,
      markersOf_append, markersOf, SIGNPOST_TYPE_EVENT,
      SIGNPOST_TYPE_INTERVAL_BEGIN, SIGNPOST_TYPE_INTERVAL_END]

/-- C2: for one logger and any positive number of handle-resolution calls
(the serialized order of any concurrent first-time callers, as guaranteed by
`Once` plus `SeqCst` publication), the native `os_log_create` call executes
exactly once and every caller observes the identical resulting handle
value. -/
theorem C2_exactly_once_creation (s c : List Nat) (r n : Nat) :
    createCount (runGets (n + 1) (OsLog.new s c) r).2.2 = 1 ∧
    (runGets (n + 1) (OsLog.new s c) r).2.1 = List.replicate (n + 1) r := by
  have hdone : ((OsLog.new s c).get r).1.initDone = true := get_initDone _ _
  have hrest := runGets_done n ((OsLog.new s c).get r).1 r hdone
  simp [OsLog.new, OsLog.get] at hrest
  constructor <;>
    simp [runGets, OsLog.new, OsLog.get, hrest, createCount, List.replicate]

/-- C10: the handle field starts at the sentinel 0, and exactly-once creation
is gated by the `Once` flag rather than by that sentinel: even when
`os_log_create` returns 0 (equal to the unset sentinel), no later resolution
call re-invokes `os_log_create`, and every later call returns that same
stored value 0. -/
theorem C10_once_gated_not_sentinel_gated (s c : List Nat) (n : Nat) :
    (OsLog.new s c).handle = 0 ∧
    createCount (runGets (n + 1) (OsLog.new s c) 0).2.2 = 1 ∧
    (runGets (n + 1) (OsLog.new s c) 0).2.1 = List.replicate (n + 1) 0 := by
  have hdone : ((OsLog.new s c).get 0).1.initDone = true := get_initDone _ _
  have hrest := runGets_done n ((OsLog.new s c).get 0).1 0 hdone
  simp [OsLog.new, OsLog.get] at hrest
  refine ⟨rfl, ?_, ?_⟩ <;>
    simp [runGets, OsLog.new, OsLog.get, hrest, createCount, List.replicate]

/-- C1 counterexample: a guard whose begin marker was skipped (tracing
disabled at begin time) does emit an end marker when tracing is enabled at
drop time, because `drop` re-evaluates enablement independently: with
enablement false at begin and true at drop, the begin trace carries no marker
while the drop trace carries the interval-end marker. -/
theorem C1_counterexample :
    markersOf ((OsLog.new [115, 0] [99, 0]).begin_interval 5 (fun _ => false) 7 [65, 0]).2
      = [] ∧
    markersOf (((OsLog.new [115, 0] [99, 0]).begin_interval 5 (fun _ => false) 7
        [65, 0]).1.drop 5 (fun _ => true))
      = [Marker.intervalEnd 7 [65, 0]] := by
  decide

/-- C1 amended: for every guard, the end marker is emitted at most once per
guard, unconditionally — whatever the enablement answers at begin time and at
drop time are — and when the enablement answer is the same at begin time and
at drop time, the end marker is emitted if and only if the matching begin
marker was emitted for that guard.  (Without that proviso the two emissions
are decided by independent enablement checks and can disagree.) -/
theorem C1_amended_pairing (l : OsLog) (r id : Nat) (enB enE : Nat → Bool)
    (name : List Nat) :
    (markersOf ((l.begin_interval r enB id name).1.drop r enE)).length ≤ 1 ∧
    (enB = enE →
      (Marker.intervalEnd id name ∈
          markersOf ((l.begin_interval r enB id name).1.drop r enE) ↔
        Marker.intervalBegin id name ∈ markersOf (l.begin_interval r enB id name).2)) := by
  have h1 : (l.get r).1.initDone = true := get_initDone l r
  have h2 : (l.get r).1.handle = (l.get r).2.1 := get_handle_eq l r
  constructor
  · cases hb : enE (l.get r).2.1 <;>
      simp [OsLog.begin_interval, SignpostInterval.drop, get_done _ _ h1, h2, hb,
        markersOf_append, markersOf, markersOf_get, SIGNPOST_TYPE_EVENT,
        SIGNPOST_TYPE_INTERVAL_BEGIN, SIGNPOST_TYPE_INTERVAL_END]
  · intro h
    subst h
    cases hb : enB (l.get r).2.1 <;>
      simp [OsLog.begin_interval, SignpostInterval.drop, get_done _ _ h1, h2, hb,
        markersOf_append, markersOf, markersOf_get, SIGNPOST_TYPE_EVENT,
        SIGNPOST_TYPE_INTERVAL_BEGIN, SIGNPOST_TYPE_INTERVAL_END]

/-- C1 amended witness: with enablement constantly true, the end marker count
is at most one, both markers are emitted, and they pair up. -/
theorem C1_amended_pairing_witness :
    (markersOf (((OsLog.new [115, 0] [99, 0]).begin_interval 5 (fun _ => true) 7
        [65, 0]).1.drop 5 (fun _ => true))).length ≤ 1 ∧
    (Marker.intervalEnd 7 [65, 0] ∈
        markersOf (((OsLog.new [115, 0] [99, 0]).begin_interval 5 (fun _ => true) 7
          [65, 0]).1.drop 5 (fun _ => true)) ↔
      Marker.intervalBegin 7 [65, 0] ∈
        markersOf ((OsLog.new [115, 0] [99, 0]).begin_interval 5 (fun _ => true) 7
          [65, 0]).2) :=
  ⟨(C1_amended_pairing (OsLog.new [115, 0] [99, 0]) 5 7 (fun _ => true) (fun _ => true)
      [65, 0]).1,
   (C1_amended_pairing (OsLog.new [115, 0] [99, 0]) 5 7 (fun _ => true) (fun _ => true)
      [65, 0]).2 rfl⟩

/-- C3 counterexample: with the enablement check answering false, the trace
of `emit_event` still contains the zero-initialization of the 64-byte scratch
buffer — the source performs `let mut buf = [0u8; 64];` before the
`os_signpost_enabled` check — so scratch-buffer work beyond the check does
happen on the disabled path (no emission call happens, as the full trace
shows). -/
theorem C3_counterexample :
    ((OsLog.new [115, 0] [99, 0]).emit_event 5 (fun _ => false) 7 [65, 0]).2 =
      [Effect.createLog [115, 0] [99, 0], Effect.bufInit 64, Effect.enabledCheck 5] ∧
    Effect.bufInit 64 ∈
      ((OsLog.new [115, 0] [99, 0]).emit_event 5 (fun _ => false) 7 [65, 0]).2 := by
  decide

/-- C3 amended: when the enablement check for the resolved handle returns
false, `emit_event` performs no emission call and returns with no side effect
other than handle resolution, the unconditional zero-initialization of the
64-byte scratch buffer (performed before the check), and the enablement
check itself. -/
theorem C3_amended_disabled_path (l : OsLog) (r id : Nat) (enabled : Nat → Bool)
    (name : List Nat) (h : enabled (l.get r).2.1 = false) :
    (l.emit_event r enabled id name).2 =
      (l.get r).2.2 ++ [Effect.bufInit 64, Effect.enabledCheck (l.get r).2.1] ∧
    markersOf (l.emit_event r enabled id name).2 = [] := by
  unfold OsLog.emit_event
  simp [h, markersOf_append, markersOf, markersOf_get]

/-- C3 amended witness: a concrete disabled run emits nothing and its trace
is exactly resolution, buffer zero-init, and the check. -/
theorem C3_amended_disabled_path_witness :
    ((OsLog.new [100, 0] [101, 0]).emit_event 9 (fun _ => false) 3 [66, 0]).2 =
      ((OsLog.new [100, 0] [101, 0]).get 9).2.2 ++
        [Effect.bufInit 64, Effect.enabledCheck ((OsLog.new [100, 0] [101, 0]).get 9).2.1] ∧
    markersOf ((OsLog.new [100, 0] [101, 0]).emit_event 9 (fun _ => false) 3 [66, 0]).2 = [] :=
  C3_amended_disabled_path (OsLog.new [100, 0] [101, 0]) 9 3 (fun _ => false) [66, 0] rfl
